import Mathlib

/-!
Shallow embedding of the per-user workspace path resolver and the file tools
of src/filesystem_server.py (the MCP filesystem server).

Paths are modelled as strings over an abstract POSIX filesystem.  The Python
library functions used by the server (os.path.join, os.path.abspath,
os.path.splitext, os.path.dirname, os.path.basename, os.path.relpath,
str.startswith, str.lstrip, str.rstrip, str.split) are translated
segment-by-segment from their CPython (posixpath) definitions.  Two pieces
of the Python standard library whose internals are external to this
repository enter as parameters of the environment record Env: the acceptance
test of the uuid.UUID constructor and the uuid.uuid5 hash; the random uuid4
value drawn when no user id is supplied is passed explicitly to each call,
so that dependence on it is visible in the statements.
-/

namespace MCPFS

/-- Python str.split on the separator "/", as a recursion over the character
list; acc holds the characters of the current segment in reverse. -/
def splitSegsAux : List Char → List Char → List String
  | [], acc => [⟨acc.reverse⟩]
  | c :: cs, acc =>
    if c = '/' then ⟨acc.reverse⟩ :: splitSegsAux cs []
    else splitSegsAux cs (c :: acc)

/-- Python "s".split("/"). -/
def splitSegs (s : String) : List String := splitSegsAux s.data []

/-- Core of posixpath.normpath on an absolute path, processing segments left
to right; acc holds the already normalised prefix reversed.  Empty and "."
segments vanish, ".." pops one segment (at the root it is dropped, matching
normpath on absolute paths), every other segment is kept. -/
def normAbsSegsAux : List String → List String → List String
  | acc, [] => acc.reverse
  | acc, s :: rest =>
    if s = "" ∨ s = "." then normAbsSegsAux acc rest
    else if s = ".." then normAbsSegsAux acc.tail rest
    else normAbsSegsAux (s :: acc) rest

/-- Segment list of posixpath.normpath of an absolute path. -/
def normAbsSegs (segs : List String) : List String := normAbsSegsAux [] segs

/-- Join path segments with "/" and no leading separator. -/
def joinSegs : List String → String
  | [] => ""
  | [s] => s
  | s :: t :: rest => s ++ "/" ++ joinSegs (t :: rest)

/-- Python "s".startswith("/"), at the level of character lists. -/
def startsWithSlashL : List Char → Bool
  | c :: _ => c == '/'
  | [] => false

/-- Python "s".startswith("/"); also posixpath.isabs. -/
def startsWithSlash (s : String) : Bool := startsWithSlashL s.data

/-- Python "s".lstrip("/"). -/
def pyLstripSlash (s : String) : String := ⟨s.data.dropWhile (· == '/')⟩

/-- posixpath.join of two components (the only arity the server uses):
an absolute second component wins; otherwise the components are glued with
exactly one "/" between them. -/
def pyJoin (a b : String) : String :=
  if startsWithSlash b then b
  else if a = "" then b
  else if a.data.getLast? = some '/' then a ++ b
  else a ++ "/" ++ b

/-- Ambient process state of the server and the two stdlib collaborators it
uses for user ids: validUUID s models the uuid.UUID constructor accepting s,
uuid5dns s models str(uuid.uuid5(uuid.NAMESPACE_DNS, s)), and cwd is the
current working directory as a list of segments (os.getcwd() is the
absolute path "/" ++ joinSegs cwd). -/
structure Env where
  validUUID : String → Bool
  uuid5dns : String → String
  cwd : List String

/-- Segment list of posixpath.abspath env.cwd p: an absolute argument is
normalised as is, a relative one is first appended to the cwd segments. -/
def absSegs (env : Env) (p : String) : List String :=
  normAbsSegs (if startsWithSlash p then splitSegs p else env.cwd ++ splitSegs p)

/-- posixpath.abspath with the working directory taken from env. -/
def pyAbspath (env : Env) (p : String) : String := "/" ++ joinSegs (absSegs env p)

/-- USER_WORKSPACE_BASE from src/filesystem_server.py. -/
def USER_WORKSPACE_BASE : String := "./user-workspaces"

/-- MAX_FILE_SIZE from src/filesystem_server.py (10 MB). -/
def MAX_FILE_SIZE : Nat := 10 * 1024 * 1024

/-- ALLOWED_EXTENSIONS from src/filesystem_server.py. -/
def ALLOWED_EXTENSIONS : List String :=
  [".txt", ".md", ".json", ".csv", ".xml", ".html", ".css", ".js", ".py", ".java",
   ".cpp", ".c", ".h", ".rb", ".go", ".rs", ".php", ".sql", ".yaml", ".yml",
   ".ini", ".cfg", ".conf", ".log", ".dockerfile", ".gitignore", ".env.example",
   ".pdf", ".docx", ".xlsx", ".pptx", ".zip", ".tar", ".gz"]

/-- The user id actually used for the workspace directory name in
get_user_workspace: a missing or empty user id (Python truthiness of the
argument) is replaced by the fresh uuid4 string drawn for this call; the
result is kept verbatim when uuid.UUID accepts it and rehashed through
uuid.uuid5 otherwise. -/
def canonicalUserId (env : Env) (userId : Option String) (fresh : String) : String :=
  let uid := match userId with
    | none => fresh
    | some u => if u = "" then fresh else u
  if env.validUUID uid then uid else env.uuid5dns uid

/-- get_user_workspace from src/filesystem_server.py: the workspace
directory os.path.join(USER_WORKSPACE_BASE, user_id).  The os.makedirs side
effect touches only this directory and is not part of the returned value. -/
def get_user_workspace (env : Env) (userId : Option String) (fresh : String) : String :=
  pyJoin USER_WORKSPACE_BASE (canonicalUserId env userId fresh)

/-- resolve_user_path from src/filesystem_server.py: strip a leading "/"
from absolute-looking input, join with the workspace, take os.path.abspath
of both, and accept exactly when the resolved string starts with the
workspace string (Python str.startswith, a bare string prefix).  The error
carries the (possibly stripped) requested path, as in the source f-string. -/
def resolve_user_path (env : Env) (path : String) (userId : Option String) (fresh : String) :
    Except String String :=
  let ws := get_user_workspace env userId fresh
  let path1 := if startsWithSlash path then pyLstripSlash path else path
  let resolvedAbs := pyAbspath env (pyJoin ws path1)
  let wsAbs := pyAbspath env ws
  if wsAbs.data.isPrefixOf resolvedAbs.data then .ok resolvedAbs
  else .error ("Path \x27" ++ path1 ++ "\x27 is outside user workspace")

/-- is_safe_path from src/filesystem_server.py. -/
def is_safe_path (env : Env) (resolvedPath userWorkspace : String) : Bool :=
  (pyAbspath env userWorkspace).data.isPrefixOf (pyAbspath env resolvedPath).data

/-- Path-segment containment of canonical absolute paths: p is the root
itself or lies strictly below it, i.e. extends it across a "/" boundary.
This is the containment notion the specification demands ("/ws/user1x" is
not contained in "/ws/user1"). -/
def isSegContained (root p : String) : Bool :=
  p == root || (root ++ "/").data.isPrefixOf p.data

/-- A concrete environment for evaluating the tools: the server runs in
/base; validUUID accepts exactly the two canonically formatted UUID strings
used in the concrete inputs below (uuid.UUID accepts both of them), and
uuid5dns returns a fixed canonical uuid5-shaped string, standing for the
SHA1-based value the stdlib would produce. -/
def envA : Env :=
  { validUUID := fun s =>
      s == "12345678-1234-5678-1234-567812345678" ||
      s == "aaaaaaaa-bbbb-cccc-dddd-eeeeeeeeeeee"
    uuid5dns := fun _ => "cd22b6d4-0a2b-5f3c-8d4e-9f0a1b2c3d4e"
    cwd := ["base"] }

/-- C1: the containment check of resolve_user_path is a bare string prefix,
not a path-segment prefix.  For the valid user
12345678-1234-5678-1234-567812345678 the requested path
../12345678-1234-5678-1234-567812345678x/secret.txt resolves without error
to a sibling directory whose name extends the workspace name, which is not
path-segment contained in the workspace root.  The third conjunct records
that the quoted root literal is the canonical workspace root of that user. -/
theorem resolve_accepts_sibling_with_extended_name :
    resolve_user_path envA "../12345678-1234-5678-1234-567812345678x/secret.txt"
        (some "12345678-1234-5678-1234-567812345678") "f"
      = .ok "/base/user-workspaces/12345678-1234-5678-1234-567812345678x/secret.txt"
    ∧ isSegContained "/base/user-workspaces/12345678-1234-5678-1234-567812345678"
        "/base/user-workspaces/12345678-1234-5678-1234-567812345678x/secret.txt" = false
    ∧ "/base/user-workspaces/12345678-1234-5678-1234-567812345678"
      = pyAbspath envA
          (get_user_workspace envA (some "12345678-1234-5678-1234-567812345678") "f") :=
  ⟨rfl, rfl, rfl⟩

/-- C2: the traversal rejection is only as strong as the string prefix test.
The scenario of the specification does fail: ../../etc/passwd for user u1 is
rejected with an error carrying the requested path, before any filesystem
operation on the target.  But a requested path containing .. whose canonical
form escapes the workspace root into a sibling directory with an extended
name is returned without error, so the universally quantified claim is false
on the code. -/
theorem resolve_traversal_check_is_string_prefix_only :
    resolve_user_path envA "../../etc/passwd" (some "u1") "f"
      = .error "Path \x27../../etc/passwd\x27 is outside user workspace"
    ∧ resolve_user_path envA "../aaaaaaaa-bbbb-cccc-dddd-eeeeeeeeeeeez/data.txt"
        (some "aaaaaaaa-bbbb-cccc-dddd-eeeeeeeeeeee") "f"
      = .ok "/base/user-workspaces/aaaaaaaa-bbbb-cccc-dddd-eeeeeeeeeeeez/data.txt"
    ∧ isSegContained
        (pyAbspath envA
          (get_user_workspace envA (some "aaaaaaaa-bbbb-cccc-dddd-eeeeeeeeeeee") "f"))
        "/base/user-workspaces/aaaaaaaa-bbbb-cccc-dddd-eeeeeeeeeeeez/data.txt" = false :=
  ⟨rfl, rfl, rfl⟩

/-- posixpath.splitext, extension part: the suffix of the final path segment
from its last dot, except that dots leading the segment do not start an
extension (so ".gitignore" has extension ""). -/
def splitextExt (p : String) : String :=
  let b := (splitSegs p).getLastD ""
  let stripped := b.data.dropWhile (· == '.')
  if stripped.contains '.' then ⟨'.' :: (stripped.reverse.takeWhile (· != '.')).reverse⟩
  else ""

/-- Python str.lower, character by character (ASCII, which covers every
extension string involved). -/
def pyLower (s : String) : String := ⟨s.data.map Char.toLower⟩

/-- posixpath.dirname: the part before the final "/", with trailing slashes
stripped unless that part consists exclusively of slashes; "" when the path
has no slash at all. -/
def pyDirname (p : String) : String :=
  let pre := (p.data.reverse.dropWhile (· != '/')).reverse
  if pre.isEmpty then ""
  else
    let stripped := (pre.reverse.dropWhile (· == '/')).reverse
    if stripped.isEmpty then ⟨pre⟩ else ⟨stripped⟩

/-- posixpath.basename: the part after the final "/". -/
def pyBasename (p : String) : String := (splitSegs p).getLastD ""

/-- Elementwise length of the common prefix of two segment lists, as
os.path.commonprefix computes it inside posixpath.relpath. -/
def commonPrefixLen : List String → List String → Nat
  | a :: as, b :: bs => if a = b then commonPrefixLen as bs + 1 else 0
  | _, _ => 0

/-- posixpath.relpath of p relative to start, both made absolute with the
cwd of env: climb with ".." out of the uncommon part of start and descend
into the uncommon part of p; "." when the two coincide. -/
def pyRelpath (env : Env) (p start : String) : String :=
  let pl := absSegs env p
  let sl := absSegs env start
  let i := commonPrefixLen sl pl
  let rel := List.replicate (sl.length - i) ".." ++ pl.drop i
  if rel.isEmpty then "." else joinSegs rel

/-- Abstract state of the part of the host filesystem the server touches:
an association of absolute file paths to their text contents, and the list
of existing directories, both over canonical absolute paths. -/
structure FileSystem where
  files : List (String × String)
  dirs : List String
deriving DecidableEq

/-- os.path.isfile in the abstract filesystem. -/
def FileSystem.isFile (fs : FileSystem) (p : String) : Bool := (fs.files.lookup p).isSome

/-- os.path.isdir in the abstract filesystem. -/
def FileSystem.isDir (fs : FileSystem) (p : String) : Bool := fs.dirs.contains p

/-- os.path.exists in the abstract filesystem. -/
def FileSystem.pathExists (fs : FileSystem) (p : String) : Bool := fs.isFile p || fs.isDir p

/-- Replace or add the binding of p in the file association list (the
effect of opening p for writing and writing c). -/
def setFile : List (String × String) → String → String → List (String × String)
  | [], p, c => [(p, c)]
  | (q, d) :: rest, p, c => if q = p then (p, c) :: rest else (q, d) :: setFile rest p c

/-- write_file from src/filesystem_server.py, as a state transformer on the
abstract filesystem paired with the returned message.  os.makedirs creates
the missing ancestors of the target directory as well; the model records
the immediate directory, which suffices here because the claims about
write_file only ever need that nothing at all is created on failure.  The
success message keeps the leading phrase and the workspace-relative path of
the report; its statistics lines are host metadata and are not modelled. -/
def write_file (env : Env) (fs : FileSystem) (path content : String) (append : Bool)
    (userId : Option String) (fresh : String) : FileSystem × String :=
  match resolve_user_path env path userId fresh with
  | .error e => (fs, "Error: " ++ e)
  | .ok resolved =>
    let ws := get_user_workspace env userId fresh
    if !(is_safe_path env resolved ws) then (fs, "Error: Access denied to path: " ++ path)
    else
      let ext := splitextExt resolved
      if !(ALLOWED_EXTENSIONS.contains (pyLower ext)) then
        (fs, "Error: File type \x27" ++ ext ++ "\x27 not allowed for writing")
      else
        let dir := pyDirname resolved
        let fs1 := if dir ≠ "" ∧ fs.pathExists dir = false
          then { fs with dirs := fs.dirs ++ [dir] } else fs
        let newContent := if append then ((fs1.files.lookup resolved).getD "") ++ content
          else content
        ({ fs1 with files := setFile fs1.files resolved newContent },
         "Content " ++ (if append then "appended to" else "written to")
           ++ " file successfully! File: " ++ pyRelpath env resolved ws)

/-- The characters Python str.rstrip with no argument removes (the ASCII
whitespace range). -/
def isPyWhite (c : Char) : Bool :=
  c == ' ' || c == '\t' || c == '\n' || c == '\r' || c == '\x0b' || c == '\x0c'

/-- Python str.rstrip with no argument. -/
def pyRstrip (s : String) : String := ⟨(s.data.reverse.dropWhile isPyWhite).reverse⟩

/-- Iterating a text file in Python yields its lines with their trailing
newline kept; a final piece without a newline is yielded when nonempty. -/
def linesKeepEndsAux : List Char → List Char → List String
  | [], acc => if acc.isEmpty then [] else [⟨acc.reverse⟩]
  | c :: cs, acc =>
    if c = '\n' then ⟨(c :: acc).reverse⟩ :: linesKeepEndsAux cs []
    else linesKeepEndsAux cs (c :: acc)

/-- The list of lines of a file content string, newlines kept. -/
def linesKeepEnds (s : String) : List String := linesKeepEndsAux s.data []

/-- The truncation marker read_file appends once max_lines lines were
read. -/
def truncMsg (maxLines : Nat) : String :=
  "\n... (truncated after " ++ toString maxLines ++ " lines)"

/-- The line loop of read_file: up to maxLines lines, each right-stripped,
then the truncation marker once the line counter reaches maxLines while
lines remain. -/
def readLoop (maxLines : Nat) : Nat → List String → List String
  | _, [] => []
  | i, l :: ls =>
    if maxLines ≤ i then [truncMsg maxLines]
    else pyRstrip l :: readLoop maxLines (i + 1) ls

/-- The successful report of read_file, by its fields; content is the text
printed after the Content: header, the join of the collected lines. -/
structure ReadOk where
  fileField : String
  encodingField : String
  linesShown : Nat
  content : String
deriving DecidableEq

/-- read_file from src/filesystem_server.py.  Decoding is modelled on the
happy path (contents are text already); file size is the byte length of the
utf-8 encoded content, as os.path.getsize reports for a file written in
utf-8. -/
def read_file (env : Env) (fs : FileSystem) (path encoding : String) (maxLines : Nat)
    (userId : Option String) (fresh : String) : Except String ReadOk :=
  match resolve_user_path env path userId fresh with
  | .error e => .error ("Error: " ++ e)
  | .ok resolved =>
    let ws := get_user_workspace env userId fresh
    if !(is_safe_path env resolved ws) then .error ("Error: Access denied to path: " ++ path)
    else if !(fs.pathExists resolved) then .error ("Error: File does not exist: " ++ path)
    else if !(fs.isFile resolved) then .error ("Error: Path is not a file: " ++ path)
    else
      let contentStr := (fs.files.lookup resolved).getD ""
      let size := contentStr.utf8ByteSize
      if MAX_FILE_SIZE < size then
        .error ("Error: File too large (" ++ toString size ++ " bytes). Maximum allowed: "
          ++ toString MAX_FILE_SIZE ++ " bytes")
      else
        let ext := splitextExt resolved
        if !(ALLOWED_EXTENSIONS.contains (pyLower ext)) then
          .error ("Error: File type \x27" ++ ext ++ "\x27 not allowed for reading")
        else
          let lns := readLoop maxLines 0 (linesKeepEnds contentStr)
          .ok { fileField := pyRelpath env resolved ws
                encodingField := encoding
                linesShown := min lns.length maxLines
                content := String.join lns }

/-- p lies strictly below dir: dir ++ "/" is a string prefix of p.  On the
canonical absolute paths of the abstract filesystem this is exactly the
tree rooted at dir. -/
def strictlyUnder (dir p : String) : Bool := (dir ++ "/").data.isPrefixOf p.data

/-- A directory is non-empty when some file or directory lies strictly
below it. -/
def dirNonEmpty (fs : FileSystem) (dir : String) : Bool :=
  fs.files.any (fun kv => strictlyUnder dir kv.1) || fs.dirs.any (fun d => strictlyUnder dir d)

/-- delete_file from src/filesystem_server.py: files are removed with
os.remove; directories with shutil.rmtree under force, and with os.rmdir
otherwise, whose OSError errno 39 (directory not empty, Linux) the handler
renders as the dedicated message with the filesystem untouched. -/
def delete_file (env : Env) (fs : FileSystem) (path : String) (force : Bool)
    (userId : Option String) (fresh : String) : FileSystem × String :=
  match resolve_user_path env path userId fresh with
  | .error e => (fs, "Error: " ++ e)
  | .ok resolved =>
    let ws := get_user_workspace env userId fresh
    if !(is_safe_path env resolved ws) then (fs, "Error: Access denied to path: " ++ path)
    else if !(fs.pathExists resolved) then (fs, "Error: Path does not exist: " ++ path)
    else
      let rel := pyRelpath env resolved ws
      if fs.isFile resolved then
        ({ fs with files := fs.files.filter (fun kv => kv.1 != resolved) },
         "File deleted successfully: " ++ rel)
      else if fs.isDir resolved then
        if force then
          ({ files := fs.files.filter (fun kv => !(strictlyUnder resolved kv.1)),
             dirs := fs.dirs.filter (fun d => d != resolved && !(strictlyUnder resolved d)) },
           "Directory deleted successfully (forced): " ++ rel)
        else if dirNonEmpty fs resolved then
          (fs, "Error: Directory not empty. Use force=True to delete non-empty directory: "
            ++ path)
        else
          ({ fs with dirs := fs.dirs.filter (fun d => d != resolved) },
           "Empty directory deleted successfully: " ++ rel)
      else (fs, "Error: Unknown file type: " ++ path)

/-- The Path field reported by get_file_info_tool on success (the metadata
lines of its report are host statistics and are not modelled). -/
def get_file_info_tool (env : Env) (fs : FileSystem) (path : String)
    (userId : Option String) (fresh : String) : Except String String :=
  match resolve_user_path env path userId fresh with
  | .error e => .error ("Error: " ++ e)
  | .ok resolved =>
    let ws := get_user_workspace env userId fresh
    if !(is_safe_path env resolved ws) then .error ("Error: Access denied to path: " ++ path)
    else if !(fs.pathExists resolved) then .error ("Error: Path does not exist: " ++ path)
    else .ok (pyRelpath env resolved ws)

/-- The fields of the get_workspace_info report.  The os.walk statistics
are modelled by filtering the abstract filesystem to the tree below the
workspace. -/
structure WorkspaceInfo where
  workspaceId : String
  workspacePath : String
  totalFiles : Nat
  totalDirs : Nat
  totalSize : Nat
deriving DecidableEq

/-- get_workspace_info from src/filesystem_server.py; its Workspace Path
field is os.path.abspath of the user workspace, the absolute host path. -/
def get_workspace_info (env : Env) (fs : FileSystem) (userId : Option String)
    (fresh : String) : WorkspaceInfo :=
  let ws := get_user_workspace env userId fresh
  let wsAbs := pyAbspath env ws
  { workspaceId := pyBasename ws
    workspacePath := wsAbs
    totalFiles := (fs.files.filter (fun kv => strictlyUnder wsAbs kv.1)).length
    totalDirs := (fs.dirs.filter (fun d => strictlyUnder wsAbs d)).length
    totalSize := ((fs.files.filter (fun kv => strictlyUnder wsAbs kv.1)).map
      (fun kv => kv.2.utf8ByteSize)).sum }

/-- Python "item".startswith("."). -/
def startsWithDot (s : String) : Bool :=
  match s.data with
  | c :: _ => c == '.'
  | [] => false

/-- One reported entry of list_directory: the Name and Path fields (the
Type, Size, Modified and Permissions lines are host metadata and are not
modelled). -/
structure ListEntry where
  name : String
  pathField : String
deriving DecidableEq

/-- The item loop of list_directory: stop once count reaches max_items,
skip hidden names unless show_hidden, skip items whose get_file_info call
errored (okInfo false), and report every other item with its path relative
to the workspace. -/
def listLoop (env : Env) (resolved ws : String) (showHidden : Bool) (maxItems : Nat)
    (okInfo : String → Bool) : Nat → List String → List ListEntry
  | _, [] => []
  | count, item :: rest =>
    if maxItems ≤ count then []
    else if !showHidden && startsWithDot item then
      listLoop env resolved ws showHidden maxItems okInfo count rest
    else if !(okInfo (pyJoin resolved item)) then
      listLoop env resolved ws showHidden maxItems okInfo count rest
    else
      { name := item, pathField := pyRelpath env (pyJoin resolved item) ws }
        :: listLoop env resolved ws showHidden maxItems okInfo (count + 1) rest

/-- Lexicographic comparison of character lists by code point, the order
Python uses to compare strings: the empty list is least, and otherwise the
first differing character decides. -/
def lexLe : List Char → List Char → Bool
  | [], _ => true
  | _ :: _, [] => false
  | a :: as, b :: bs => if a = b then lexLe as bs else decide (a < b)

/-- The Python string order, as a relation on strings. -/
def pyLe (a b : String) : Prop := lexLe a.data b.data = true

instance : DecidableRel pyLe := fun a b =>
  inferInstanceAs (Decidable (lexLe a.data b.data = true))

/-- lexLe is total. -/
theorem lexLe_total (as : List Char) : ∀ bs, lexLe as bs = true ∨ lexLe bs as = true := by
  induction as with
  | nil => intro bs; left; rfl
  | cons a as ih =>
    intro bs
    cases bs with
    | nil => right; rfl
    | cons b bs =>
      by_cases hab : a = b
      · subst hab
        rw [lexLe, lexLe, if_pos rfl, if_pos rfl]
        exact ih bs
      · rw [lexLe, lexLe, if_neg hab, if_neg (Ne.symm hab)]
        rcases lt_or_gt_of_ne hab with h | h
        · left; exact decide_eq_true h
        · right; exact decide_eq_true h

/-- lexLe is transitive. -/
theorem lexLe_trans (as : List Char) :
    ∀ bs cs, lexLe as bs = true → lexLe bs cs = true → lexLe as cs = true := by
  induction as with
  | nil => intro bs cs _ _; rfl
  | cons a as ih =>
    intro bs cs h1 h2
    cases bs with
    | nil => simp [lexLe] at h1
    | cons b bs =>
      cases cs with
      | nil => simp [lexLe] at h2
      | cons c cs =>
        rw [lexLe] at h1 h2 ⊢
        by_cases hab : a = b
        · subst hab
          rw [if_pos rfl] at h1
          by_cases hac : a = c
          · subst hac
            rw [if_pos rfl] at h2 ⊢
            exact ih bs cs h1 h2
          · rw [if_neg hac] at h2 ⊢
            exact h2
        · rw [if_neg hab] at h1
          have hlt1 : a < b := of_decide_eq_true h1
          by_cases hbc : b = c
          · subst hbc
            rw [if_neg hab]
            exact decide_eq_true hlt1
          · rw [if_neg hbc] at h2
            have hlt2 : b < c := of_decide_eq_true h2
            have hac : a < c := lt_trans hlt1 hlt2
            rw [if_neg (ne_of_lt hac)]
            exact decide_eq_true hac

instance : IsTotal String pyLe := ⟨fun a b => lexLe_total a.data b.data⟩

instance : IsTrans String pyLe := ⟨fun a b c => lexLe_trans a.data b.data c.data⟩

/-- The entries list_directory reports for a directory whose os.listdir
returned rawEntries: Python sorted() orders the names by pyLe (over a total
order whose equal elements are identical strings every sorted rearrangement
coincides, so insertion sort is extensionally the Timsort of CPython), and
the loop above walks the ordered names. -/
def list_directory_entries (env : Env) (resolved ws : String) (showHidden : Bool)
    (maxItems : Nat) (okInfo : String → Bool) (rawEntries : List String) : List ListEntry :=
  listLoop env resolved ws showHidden maxItems okInfo 0
    (List.insertionSort pyLe rawEntries)

/-- The inner loop of search_files over the items of one walk root: match
the fnmatch predicate, re-check safety of the item path, and report the
workspace-relative path, counting towards max_results. -/
def searchInner (env : Env) (ws : String) (matchP : String → Bool) (maxResults : Nat)
    (root : String) : Nat → List String → List String × Nat
  | count, [] => ([], count)
  | count, item :: rest =>
    if maxResults ≤ count then ([], count)
    else if matchP item then
      let ip := pyJoin root item
      if is_safe_path env ip ws then
        let r := searchInner env ws matchP maxResults root (count + 1) rest
        (pyRelpath env ip ws :: r.1, r.2)
      else searchInner env ws matchP maxResults root count rest
    else searchInner env ws matchP maxResults root count rest

/-- The outer loop of search_files over the os.walk triples (root, dirs,
files): stop at max_results, skip roots failing is_safe_path, and search
the files (plus the dirs when not file_only) of each remaining root. -/
def searchOuter (env : Env) (ws : String) (fileOnly : Bool) (matchP : String → Bool)
    (maxResults : Nat) : Nat → List (String × List String × List String) → List String
  | _, [] => []
  | count, (root, ds, fls) :: rest =>
    if maxResults ≤ count then []
    else if !(is_safe_path env root ws) then
      searchOuter env ws fileOnly matchP maxResults count rest
    else
      let items := if fileOnly then fls else fls ++ ds
      let r := searchInner env ws matchP maxResults root count items
      r.1 ++ searchOuter env ws fileOnly matchP maxResults r.2 rest

/-- The Path fields search_files reports, given the os.walk listing of the
resolved directory as a list of (root, dirs, files) triples; matchP models
fnmatch.fnmatch(item, pattern), a stdlib collaborator. -/
def search_files_paths (env : Env) (ws : String) (fileOnly : Bool) (matchP : String → Bool)
    (maxResults : Nat) (walk : List (String × List String × List String)) : List String :=
  searchOuter env ws fileOnly matchP maxResults 0 walk

/-- The workspace of the first concrete user under envA, in canonical
absolute form. -/
def wsAbsA : String := "/base/user-workspaces/12345678-1234-5678-1234-567812345678"

/-- A filesystem holding just that empty workspace directory. -/
def fsW : FileSystem := ⟨[], [wsAbsA]⟩

/-- C3: the write/read round trip is not byte-identical.  Writing the two
line content "a\nb" to notes.txt succeeds and stores exactly "a\nb", but
reading the file back returns content "ab": the read loop right-strips
every line (removing its newline) and joins the pieces with the empty
separator, so the newline is lost. -/
theorem write_then_read_drops_newlines :
    write_file envA fsW "notes.txt" "a\nb" false
        (some "12345678-1234-5678-1234-567812345678") "f"
      = (⟨[(wsAbsA ++ "/notes.txt", "a\nb")], [wsAbsA]⟩,
         "Content written to file successfully! File: notes.txt")
    ∧ (read_file envA ⟨[(wsAbsA ++ "/notes.txt", "a\nb")], [wsAbsA]⟩
        "notes.txt" "utf-8" 1000 (some "12345678-1234-5678-1234-567812345678") "f").map
          ReadOk.content = .ok "ab"
    ∧ ("ab" : String) ≠ "a\nb" :=
  ⟨rfl, rfl, by decide⟩

/-- A concrete environment for the user id determinism claims: validUUID
accepts exactly the two canonically formatted uuid4-shaped strings drawn as
fresh ids below (uuid.UUID accepts both), and the uuid5 hash is the
identity, which is irrelevant here because it is never reached on a fresh
uuid4 value. -/
def envC7 : Env :=
  { validUUID := fun s =>
      s == "aaaaaaaa-0000-4000-8000-000000000000" ||
      s == "bbbbbbbb-0000-4000-8000-000000000000"
    uuid5dns := fun s => s
    cwd := ["base"] }

/-- C7 counterexample: the empty string is not a valid canonical UUID, yet
get_user_workspace does not derive a stable identifier from it: Python
truthiness treats "" as a missing user id, so a fresh random uuid4 is used
and two calls with the identical input "" can yield different workspaces. -/
theorem empty_user_id_workspace_not_deterministic :
    canonicalUserId envC7 (some "") "aaaaaaaa-0000-4000-8000-000000000000"
      ≠ canonicalUserId envC7 (some "") "bbbbbbbb-0000-4000-8000-000000000000"
    ∧ get_user_workspace envC7 (some "") "aaaaaaaa-0000-4000-8000-000000000000"
      ≠ get_user_workspace envC7 (some "") "bbbbbbbb-0000-4000-8000-000000000000" :=
  ⟨by decide, by decide⟩

/-- C7 amended: for every non-empty user id string the derived identifier
and hence the workspace path do not depend on the fresh randomness of the
call, so two calls with the identical input always agree, whatever the
validity test and hash function of the environment. -/
theorem nonempty_user_id_workspace_deterministic (env : Env) (u : String) (hu : u ≠ "")
    (f1 f2 : String) :
    canonicalUserId env (some u) f1 = canonicalUserId env (some u) f2
    ∧ get_user_workspace env (some u) f1 = get_user_workspace env (some u) f2 := by
  have h : ∀ f, canonicalUserId env (some u) f
      = (if env.validUUID u then u else env.uuid5dns u) := by
    intro f
    simp [canonicalUserId, hu]
  refine ⟨by rw [h f1, h f2], ?_⟩
  unfold get_user_workspace
  rw [h f1, h f2]

/-- Witness for the amended C7 at the malformed id "not-a-uuid" and two
distinct fresh uuid4 values. -/
theorem nonempty_user_id_workspace_deterministic_witness :
    get_user_workspace envC7 (some "not-a-uuid") "aaaaaaaa-0000-4000-8000-000000000000"
      = get_user_workspace envC7 (some "not-a-uuid") "bbbbbbbb-0000-4000-8000-000000000000" :=
  (nonempty_user_id_workspace_deterministic envC7 "not-a-uuid" (by decide)
    "aaaaaaaa-0000-4000-8000-000000000000" "bbbbbbbb-0000-4000-8000-000000000000").2

/-- C5: once a requested path resolves and passes the safety check, a
resolved extension outside the allow-list (case-insensitively) makes
write_file return the extension error with the filesystem completely
unchanged: no file and no directory is created, because the extension check
precedes os.makedirs and the open. -/
theorem write_file_disallowed_extension_rejected (env : Env) (fs : FileSystem)
    (path content : String) (append : Bool) (userId : Option String) (fresh r : String)
    (hres : resolve_user_path env path userId fresh = .ok r)
    (hsafe : is_safe_path env r (get_user_workspace env userId fresh) = true)
    (hext : ALLOWED_EXTENSIONS.contains (pyLower (splitextExt r)) = false) :
    write_file env fs path content append userId fresh
      = (fs, "Error: File type \x27" ++ splitextExt r ++ "\x27 not allowed for writing") := by
  have hext2 : pyLower (splitextExt r) ∉ ALLOWED_EXTENSIONS := by
    simpa using hext
  unfold write_file
  rw [hres]
  simp [hsafe, hext2]

/-- Witness for C5: writing evil.exe inside the workspace is rejected with
the extension error and the filesystem stays as it was. -/
theorem write_file_disallowed_extension_rejected_witness :
    write_file envA fsW "evil.exe" "x" false
        (some "12345678-1234-5678-1234-567812345678") "f"
      = (fsW, "Error: File type \x27.exe\x27 not allowed for writing") :=
  write_file_disallowed_extension_rejected envA fsW "evil.exe" "x" false
    (some "12345678-1234-5678-1234-567812345678") "f" (wsAbsA ++ "/evil.exe")
    rfl rfl (by decide)

/-- C8: a resolved path whose final segment has no extension (posixpath
splitext yields "") is rejected by both read_file and write_file with the
file-type error, because "" is not in the allow-list; for read_file this
holds for every existing regular file within the size ceiling, and for
write_file the filesystem is left unchanged. -/
theorem extensionless_files_unreachable (env : Env) (fs : FileSystem) (path : String)
    (userId : Option String) (fresh r content wcontent : String) (append : Bool)
    (hres : resolve_user_path env path userId fresh = .ok r)
    (hsafe : is_safe_path env r (get_user_workspace env userId fresh) = true)
    (hext : splitextExt r = "")
    (hfile : fs.files.lookup r = some content)
    (hsize : content.utf8ByteSize ≤ MAX_FILE_SIZE) :
    read_file env fs path "utf-8" 1000 userId fresh
      = .error "Error: File type \x27\x27 not allowed for reading"
    ∧ write_file env fs path wcontent append userId fresh
      = (fs, "Error: File type \x27\x27 not allowed for writing")
    ∧ ALLOWED_EXTENSIONS.contains (pyLower "") = false := by
  have hnotin : pyLower "" ∉ ALLOWED_EXTENSIONS := by decide
  have hisf : fs.isFile r = true := by simp [FileSystem.isFile, hfile]
  have hex : fs.pathExists r = true := by simp [FileSystem.pathExists, hisf]
  refine ⟨?_, ?_, by decide⟩
  · unfold read_file
    rw [hres]
    simp [hsafe, hex, hisf, hfile, Nat.not_lt.mpr hsize, hext, hnotin]
  · unfold write_file
    rw [hres]
    simp [hsafe, hext, hnotin]

/-- A filesystem with the extensionless file README in the workspace. -/
def fsR : FileSystem := ⟨[(wsAbsA ++ "/README", "hi")], [wsAbsA]⟩

/-- Witness for C8: the existing two-byte file README can be neither read
nor overwritten. -/
theorem extensionless_files_unreachable_witness :
    read_file envA fsR "README" "utf-8" 1000
        (some "12345678-1234-5678-1234-567812345678") "f"
      = .error "Error: File type \x27\x27 not allowed for reading"
    ∧ write_file envA fsR "README" "new" false
        (some "12345678-1234-5678-1234-567812345678") "f"
      = (fsR, "Error: File type \x27\x27 not allowed for writing") :=
  have h := extensionless_files_unreachable envA fsR "README"
    (some "12345678-1234-5678-1234-567812345678") "f" (wsAbsA ++ "/README") "hi" "new" false
    rfl rfl rfl rfl (by decide)
  ⟨h.1, h.2.1⟩

/-- If an element fails the filter predicate, it is not contained in the
filtered list. -/
theorem contains_filter_eq_false (l : List String) (r : String) (p : String → Bool)
    (hp : p r = false) : (l.filter p).contains r = false := by
  rw [Bool.eq_false_iff]
  intro hc
  have hmem : r ∈ l.filter p := List.mem_of_elem_eq_true hc
  have := (List.mem_filter.mp hmem).2
  rw [hp] at this
  exact Bool.false_ne_true this

/-- C6: deleting a non-empty directory without force returns the
directory-not-empty error with the filesystem unchanged (so the directory
still exists), and deleting it with force succeeds with the forced-success
message and the directory is gone. -/
theorem delete_nonempty_directory (env : Env) (fs : FileSystem) (path : String)
    (userId : Option String) (fresh r : String)
    (hres : resolve_user_path env path userId fresh = .ok r)
    (hsafe : is_safe_path env r (get_user_workspace env userId fresh) = true)
    (hnotfile : fs.isFile r = false)
    (hdir : fs.isDir r = true)
    (hne : dirNonEmpty fs r = true) :
    delete_file env fs path false userId fresh
      = (fs, "Error: Directory not empty. Use force=True to delete non-empty directory: "
          ++ path)
    ∧ (delete_file env fs path false userId fresh).1.isDir r = true
    ∧ (delete_file env fs path true userId fresh).1.isDir r = false
    ∧ (delete_file env fs path true userId fresh).2
      = "Directory deleted successfully (forced): "
        ++ pyRelpath env r (get_user_workspace env userId fresh) := by
  have hex : fs.pathExists r = true := by simp [FileSystem.pathExists, hdir]
  have h1 : delete_file env fs path false userId fresh
      = (fs, "Error: Directory not empty. Use force=True to delete non-empty directory: "
          ++ path) := by
    unfold delete_file
    rw [hres]
    simp [hsafe, hex, hnotfile, hdir, hne]
  have h2 : delete_file env fs path true userId fresh
      = (⟨fs.files.filter (fun kv => !(strictlyUnder r kv.1)),
          fs.dirs.filter (fun d => d != r && !(strictlyUnder r d))⟩,
         "Directory deleted successfully (forced): "
           ++ pyRelpath env r (get_user_workspace env userId fresh)) := by
    unfold delete_file
    rw [hres]
    simp [hsafe, hex, hnotfile, hdir]
  refine ⟨h1, by rw [h1]; exact hdir, ?_, by rw [h2]⟩
  rw [h2]
  exact contains_filter_eq_false _ _ _ (by simp)

/-- A filesystem whose workspace holds the directory sub containing the
file a.txt. -/
def fsD : FileSystem := ⟨[(wsAbsA ++ "/sub/a.txt", "hi")], [wsAbsA, wsAbsA ++ "/sub"]⟩

/-- Witness for C6 at the non-empty directory sub. -/
theorem delete_nonempty_directory_witness :
    delete_file envA fsD "sub" false
        (some "12345678-1234-5678-1234-567812345678") "f"
      = (fsD, "Error: Directory not empty. Use force=True to delete non-empty directory: sub")
    ∧ (delete_file envA fsD "sub" true
        (some "12345678-1234-5678-1234-567812345678") "f").1.isDir (wsAbsA ++ "/sub") = false :=
  have h := delete_nonempty_directory envA fsD "sub"
    (some "12345678-1234-5678-1234-567812345678") "f" (wsAbsA ++ "/sub")
    rfl rfl rfl (by decide) (by decide)
  ⟨h.1, h.2.2.1⟩

/-- Closed form of the line loop of read_file: the lines up to the
remaining budget, right-stripped, followed by the truncation marker exactly
when lines remain beyond the budget. -/
theorem readLoop_eq (maxLines : Nat) (ls : List String) : ∀ i : Nat,
    readLoop maxLines i ls
      = (ls.take (maxLines - i)).map pyRstrip
        ++ (if maxLines - i < ls.length then [truncMsg maxLines] else []) := by
  induction ls with
  | nil => intro i; simp [readLoop]
  | cons l ls ih =>
    intro i
    by_cases h : maxLines ≤ i
    · have h0 : maxLines - i = 0 := Nat.sub_eq_zero_of_le h
      simp [readLoop, h, h0]
    · have hs : maxLines - i = (maxLines - (i + 1)) + 1 := by omega
      rw [readLoop, if_neg h, ih (i + 1), hs]
      simp [List.take_succ_cons, Nat.succ_lt_succ_iff]

/-- C9: read_file includes at most max_lines lines.  When the file has more
than max_lines lines, the loop of read_file yields exactly the first
max_lines lines (each right-stripped, no later line ever appears) followed
by the truncation marker naming max_lines; when the file has at most
max_lines lines it yields all lines and no marker. -/
theorem read_file_truncation (fileLines : List String) (maxLines : Nat) :
    (maxLines < fileLines.length →
      readLoop maxLines 0 fileLines
        = (fileLines.take maxLines).map pyRstrip ++ [truncMsg maxLines])
    ∧ (fileLines.length ≤ maxLines →
      readLoop maxLines 0 fileLines = fileLines.map pyRstrip) := by
  constructor
  · intro h
    rw [readLoop_eq maxLines fileLines 0]
    simp [h]
  · intro h
    rw [readLoop_eq maxLines fileLines 0]
    simp [Nat.not_lt.mpr h, List.take_of_length_le h]

/-- Witness for C9: a three line file truncated at two lines, and a two
line file returned whole. -/
theorem read_file_truncation_witness :
    readLoop 2 0 ["a \n", "b\n", "c\n"]
      = (["a \n", "b\n", "c\n"].take 2).map pyRstrip ++ [truncMsg 2]
    ∧ readLoop 2 0 ["a\n", "b\n"] = ["a\n", "b\n"].map pyRstrip :=
  ⟨(read_file_truncation ["a \n", "b\n", "c\n"] 2).1 (by decide),
   (read_file_truncation ["a\n", "b\n"] 2).2 (by decide)⟩

/-- The predicate deciding whether the loop of list_directory reports an
item: visible (or show_hidden), and its get_file_info succeeded. -/
def listPass (showHidden : Bool) (okInfo : String → Bool) (resolved item : String) : Bool :=
  (showHidden || !(startsWithDot item)) && okInfo (pyJoin resolved item)

/-- Closed form of the item loop of list_directory: the passing items up to
the remaining budget, each turned into its reported entry. -/
theorem listLoop_eq (env : Env) (resolved ws : String) (showHidden : Bool) (maxItems : Nat)
    (okInfo : String → Bool) (l : List String) : ∀ count : Nat,
    listLoop env resolved ws showHidden maxItems okInfo count l
      = ((l.filter (listPass showHidden okInfo resolved)).take (maxItems - count)).map
          (fun item =>
            { name := item, pathField := pyRelpath env (pyJoin resolved item) ws }) := by
  induction l with
  | nil => intro count; simp [listLoop]
  | cons item rest ih =>
    intro count
    by_cases hc : maxItems ≤ count
    · have h0 : maxItems - count = 0 := Nat.sub_eq_zero_of_le hc
      simp [listLoop, hc, h0]
    · have hs : maxItems - count = (maxItems - (count + 1)) + 1 := by omega
      rw [listLoop, if_neg hc]
      by_cases h1 : (!showHidden && startsWithDot item) = true
      · have h1p : showHidden = false ∧ startsWithDot item = true := by
          simpa using h1
        have hpass : listPass showHidden okInfo resolved item = false := by
          simp [listPass, h1p.1, h1p.2]
        rw [if_pos h1, ih count]
        simp [List.filter_cons, hpass]
      · have h1f : showHidden = true ∨ startsWithDot item = false := by
          by_cases hsh : showHidden = true
          · exact Or.inl hsh
          · have hshf : showHidden = false := by simpa using hsh
            by_cases hdot : startsWithDot item = true
            · exact absurd (by simp [hshf, hdot]) h1
            · exact Or.inr (by simpa using hdot)
        by_cases h2 : okInfo (pyJoin resolved item) = true
        · have hpass : listPass showHidden okInfo resolved item = true := by
            rcases h1f with ha | hb
            · simp [listPass, ha, h2]
            · simp [listPass, hb, h2]
          rw [if_neg h1, if_neg (by simp [h2]), ih (count + 1)]
          simp [List.filter_cons, hpass, hs, List.take_succ_cons]
        · have h2f : okInfo (pyJoin resolved item) = false := by
            simpa using h2
          have hpass : listPass showHidden okInfo resolved item = false := by
            simp [listPass, h2f]
          rw [if_neg h1, if_pos (by simp [h2f]), ih count]
          simp [List.filter_cons, hpass]

/-- C10: every directory listing reports at most max_items entries, the
entries appear in ascending lexicographic order of their names, and names
beginning with a dot are omitted unless show_hidden is set. -/
theorem list_directory_entries_bounded_sorted_hidden (env : Env) (resolved ws : String)
    (showHidden : Bool) (maxItems : Nat) (okInfo : String → Bool) (raw : List String) :
    (list_directory_entries env resolved ws showHidden maxItems okInfo raw).length ≤ maxItems
    ∧ ((list_directory_entries env resolved ws showHidden maxItems okInfo raw).map
        ListEntry.name).Sorted pyLe
    ∧ (showHidden = false →
        ∀ e ∈ list_directory_entries env resolved ws showHidden maxItems okInfo raw,
          startsWithDot e.name = false) := by
  have hmain := listLoop_eq env resolved ws showHidden maxItems okInfo
    (List.insertionSort pyLe raw) 0
  rw [Nat.sub_zero] at hmain
  unfold list_directory_entries
  refine ⟨?_, ?_, ?_⟩
  · rw [hmain]
    rw [List.length_map]
    exact le_trans (List.length_take_le _ _) (le_refl _)
  · rw [hmain, List.map_map]
    have hid : (ListEntry.name ∘ fun item =>
        ({ name := item, pathField := pyRelpath env (pyJoin resolved item) ws } : ListEntry))
        = id := rfl
    rw [hid, List.map_id]
    have hsorted : List.Sorted pyLe (List.insertionSort pyLe raw) :=
      List.sorted_insertionSort _ _
    exact List.Pairwise.sublist
      ((List.take_sublist _ _).trans (List.filter_sublist _)) hsorted
  · intro hsh e he
    rw [hmain] at he
    obtain ⟨item, hitem, rfl⟩ := List.mem_map.mp he
    have hpass := (List.mem_filter.mp (List.mem_of_mem_take hitem)).2
    simp only [listPass, hsh, Bool.false_or, Bool.and_eq_true, Bool.not_eq_true'] at hpass
    exact hpass.1

/-- Witness for C10: a directory with three names, listed without hidden
entries. -/
theorem list_directory_entries_bounded_sorted_hidden_witness :
    (list_directory_entries envA wsAbsA wsAbsA false 10 (fun _ => true)
        ["b.txt", ".hidden", "a.txt"]).length ≤ 10
    ∧ ((list_directory_entries envA wsAbsA wsAbsA false 10 (fun _ => true)
        ["b.txt", ".hidden", "a.txt"]).map ListEntry.name).Sorted pyLe
    ∧ startsWithDot (ListEntry.mk "a.txt" "a.txt").name = false :=
  have h := list_directory_entries_bounded_sorted_hidden envA wsAbsA wsAbsA false 10
    (fun _ => true) ["b.txt", ".hidden", "a.txt"]
  ⟨h.1, h.2.1, h.2.2 rfl (ListEntry.mk "a.txt" "a.txt") (by decide)⟩

/-- Well-formedness of the environment: the working directory segments are
genuine path segments, nonempty and free of the separator. -/
def Env.wf (env : Env) : Prop := ∀ s ∈ env.cwd, s ≠ "" ∧ '/' ∉ s.data

/-- String append acts as list append on the character data. -/
theorem strData_append (a b : String) : (a ++ b).data = a.data ++ b.data := rfl

/-- Segments produced by splitting on "/" contain no "/". -/
theorem mem_splitSegsAux_no_slash :
    ∀ (cs acc : List Char), '/' ∉ acc → ∀ x ∈ splitSegsAux cs acc, '/' ∉ x.data := by
  intro cs
  induction cs with
  | nil =>
    intro acc hacc x hx
    rw [splitSegsAux] at hx
    obtain rfl := List.mem_singleton.mp hx
    show '/' ∉ acc.reverse
    simpa [List.mem_reverse] using hacc
  | cons c cs ih =>
    intro acc hacc x hx
    rw [splitSegsAux] at hx
    by_cases hc : c = '/'
    · rw [if_pos hc] at hx
      rcases List.mem_cons.mp hx with rfl | hx2
      · show '/' ∉ acc.reverse
        simpa [List.mem_reverse] using hacc
      · exact ih [] (by simp) x hx2
    · rw [if_neg hc] at hx
      refine ih (c :: acc) ?_ x hx
      intro hmem
      rcases List.mem_cons.mp hmem with h | h
      · exact hc h.symm
      · exact hacc h

/-- Segments produced by splitSegs contain no "/". -/
theorem splitSegs_no_slash (p : String) : ∀ x ∈ splitSegs p, '/' ∉ x.data :=
  mem_splitSegsAux_no_slash p.data [] (by simp)

/-- Every output segment of the normalisation loop either sat in the
accumulator or is a kept input segment (neither empty nor "." nor ".."). -/
theorem normAbsSegsAux_forall (Q : String → Prop) :
    ∀ (l acc : List String), (∀ y ∈ acc, Q y) →
      (∀ y ∈ l, y ≠ "" → y ≠ "." → y ≠ ".." → Q y) →
      ∀ x ∈ normAbsSegsAux acc l, Q x := by
  intro l
  induction l with
  | nil =>
    intro acc hacc _ x hx
    rw [normAbsSegsAux] at hx
    exact hacc x (List.mem_reverse.mp hx)
  | cons s rest ih =>
    intro acc hacc hl x hx
    rw [normAbsSegsAux] at hx
    by_cases h1 : s = "" ∨ s = "."
    · rw [if_pos h1] at hx
      exact ih acc hacc (fun y hy h2 h3 h4 => hl y (List.mem_cons_of_mem _ hy) h2 h3 h4) x hx
    · rw [if_neg h1] at hx
      by_cases h2 : s = ".."
      · rw [if_pos h2] at hx
        exact ih acc.tail (fun y hy => hacc y (List.mem_of_mem_tail hy))
          (fun y hy h3 h4 h5 => hl y (List.mem_cons_of_mem _ hy) h3 h4 h5) x hx
      · rw [if_neg h2] at hx
        refine ih (s :: acc) ?_
          (fun y hy h3 h4 h5 => hl y (List.mem_cons_of_mem _ hy) h3 h4 h5) x hx
        intro y hy
        rcases List.mem_cons.mp hy with rfl | hy2
        · push_neg at h1
          exact hl y (List.mem_cons_self _ _) h1.1 h1.2 h2
        · exact hacc y hy2

/-- In a well-formed environment, every segment of a canonical absolute
path is nonempty and free of the separator. -/
theorem absSegs_good (env : Env) (hwf : env.wf) (p : String) :
    ∀ x ∈ absSegs env p, x ≠ "" ∧ '/' ∉ x.data := by
  intro x hx
  unfold absSegs normAbsSegs at hx
  have key : ∀ (segs : List String), (∀ y ∈ segs, '/' ∉ y.data) →
      ∀ x ∈ normAbsSegsAux [] segs, x ≠ "" ∧ '/' ∉ x.data := by
    intro segs hsegs
    exact normAbsSegsAux_forall _ segs [] (by simp)
      (fun y hy h1 _ _ => ⟨h1, hsegs y hy⟩)
  split at hx
  · exact key _ (fun y hy => splitSegs_no_slash p y hy) x hx
  · refine key _ ?_ x hx
    intro y hy
    rcases List.mem_append.mp hy with h | h
    · exact (hwf y h).2
    · exact splitSegs_no_slash p y h

/-- A nonempty string has nonempty character data. -/
theorem data_ne_nil_of_ne_empty {x : String} (h : x ≠ "") : x.data ≠ [] := by
  intro hnil
  exact h (String.ext hnil)

/-- Joining segments whose head is nonempty and separator-free yields a
relative path: it does not start with "/". -/
theorem startsWithSlash_joinSegs (x : String) (xs : List String)
    (h1 : x ≠ "") (h2 : '/' ∉ x.data) :
    startsWithSlash (joinSegs (x :: xs)) = false := by
  have hx : x.data ≠ [] := data_ne_nil_of_ne_empty h1
  obtain ⟨c, t, hct⟩ : ∃ c t, x.data = c :: t := by
    cases hd : x.data with
    | nil => exact absurd hd hx
    | cons c t => exact ⟨c, t, rfl⟩
  have hc : c ≠ '/' := by
    intro hceq
    exact h2 (by rw [hct, hceq]; exact List.mem_cons_self _ _)
  cases xs with
  | nil =>
    show startsWithSlashL x.data = false
    rw [hct]
    simpa [startsWithSlashL] using hc
  | cons y ys =>
    show startsWithSlashL ((x ++ "/" ++ joinSegs (y :: ys)).data) = false
    rw [strData_append, strData_append, hct, List.cons_append, List.cons_append]
    simpa [startsWithSlashL] using hc

/-- Canonical absolute paths start with "/". -/
theorem startsWithSlash_pyAbspath (env : Env) (p : String) :
    startsWithSlash (pyAbspath env p) = true := by
  show startsWithSlashL (("/" ++ joinSegs (absSegs env p)).data) = true
  rw [strData_append]
  rfl

/-- In a well-formed environment, posixpath.relpath never returns an
absolute path: its result does not start with "/". -/
theorem startsWithSlash_pyRelpath (env : Env) (hwf : env.wf) (p start : String) :
    startsWithSlash (pyRelpath env p start) = false := by
  have hgood : ∀ x ∈ List.replicate
      ((absSegs env start).length - commonPrefixLen (absSegs env start) (absSegs env p)) ".."
      ++ (absSegs env p).drop (commonPrefixLen (absSegs env start) (absSegs env p)),
      x ≠ "" ∧ '/' ∉ x.data := by
    intro x hx
    rcases List.mem_append.mp hx with h | h
    · have hx2 := List.eq_of_mem_replicate h
      subst hx2
      exact ⟨by decide, by decide⟩
    · exact absSegs_good env hwf p x (List.mem_of_mem_drop h)
  simp only [pyRelpath]
  cases hr : List.replicate
      ((absSegs env start).length - commonPrefixLen (absSegs env start) (absSegs env p)) ".."
      ++ (absSegs env p).drop (commonPrefixLen (absSegs env start) (absSegs env p)) with
  | nil =>
    rfl
  | cons x xs =>
    have hx := hgood x (by rw [hr]; exact List.mem_cons_self x xs)
    show startsWithSlash (joinSegs (x :: xs)) = false
    exact startsWithSlash_joinSegs x xs hx.1 hx.2

/-- Every path reported by the inner search loop is workspace-relative. -/
theorem searchInner_relative (env : Env) (hwf : env.wf) (ws : String)
    (matchP : String → Bool) (maxResults : Nat) (root : String) :
    ∀ (items : List String) (count : Nat) (q : String),
      q ∈ (searchInner env ws matchP maxResults root count items).1 →
      startsWithSlash q = false := by
  intro items
  induction items with
  | nil =>
    intro count q hq
    rw [searchInner] at hq
    simp at hq
  | cons item rest ih =>
    intro count q hq
    rw [searchInner] at hq
    by_cases h1 : maxResults ≤ count
    · rw [if_pos h1] at hq
      simp at hq
    · rw [if_neg h1] at hq
      by_cases h2 : matchP item = true
      · rw [if_pos h2] at hq
        by_cases h3 : is_safe_path env (pyJoin root item) ws = true
        · rw [if_pos h3] at hq
          simp only [List.mem_cons] at hq
          rcases hq with rfl | hq2
          · exact startsWithSlash_pyRelpath env hwf _ _
          · exact ih (count + 1) q hq2
        · rw [if_neg h3] at hq
          exact ih count q hq
      · rw [if_neg h2] at hq
        exact ih count q hq

/-- Every path reported by the outer search loop is workspace-relative. -/
theorem searchOuter_relative (env : Env) (hwf : env.wf) (ws : String) (fileOnly : Bool)
    (matchP : String → Bool) (maxResults : Nat) :
    ∀ (walk : List (String × List String × List String)) (count : Nat) (q : String),
      q ∈ searchOuter env ws fileOnly matchP maxResults count walk →
      startsWithSlash q = false := by
  intro walk
  induction walk with
  | nil =>
    intro count q hq
    rw [searchOuter] at hq
    simp at hq
  | cons trip rest ih =>
    obtain ⟨root, ds, fls⟩ := trip
    intro count q hq
    rw [searchOuter] at hq
    by_cases h1 : maxResults ≤ count
    · rw [if_pos h1] at hq
      simp at hq
    · rw [if_neg h1] at hq
      by_cases h2 : (!(is_safe_path env root ws)) = true
      · rw [if_pos h2] at hq
        exact ih count q hq
      · rw [if_neg h2] at hq
        simp only [List.mem_append] at hq
        rcases hq with h | h
        · exact searchInner_relative env hwf ws matchP maxResults root _ _ q h
        · exact ih _ q h

/-- C4 counterexample: get_workspace_info reports the absolute host path of
the workspace in its Workspace Path field, for the concrete user whose
workspace is /base/user-workspaces/12345678-1234-5678-1234-567812345678. -/
theorem get_workspace_info_reports_absolute_path :
    (get_workspace_info envA fsW
        (some "12345678-1234-5678-1234-567812345678") "f").workspacePath
      = "/base/user-workspaces/12345678-1234-5678-1234-567812345678"
    ∧ "/base/user-workspaces/12345678-1234-5678-1234-567812345678"
      = pyAbspath envA
          (get_user_workspace envA (some "12345678-1234-5678-1234-567812345678") "f")
    ∧ startsWithSlash
        "/base/user-workspaces/12345678-1234-5678-1234-567812345678" = true :=
  ⟨rfl, rfl, rfl⟩

/-- C4 amended: directory listings, search results and the file-info report
only ever carry workspace-relative paths (they never start with "/", while
the absolute host path does), but get_workspace_info does report the
absolute host path of the workspace. -/
theorem reported_paths_relative_except_workspace_info (env : Env) (hwf : env.wf)
    (resolved ws : String) (showHidden : Bool) (maxItems : Nat) (okInfo : String → Bool)
    (raw : List String) (fs : FileSystem) (walk : List (String × List String × List String))
    (fileOnly : Bool) (maxResults : Nat) (matchP : String → Bool)
    (userId : Option String) (fresh path p : String) :
    (∀ e ∈ list_directory_entries env resolved ws showHidden maxItems okInfo raw,
        startsWithSlash e.pathField = false)
    ∧ (∀ q ∈ search_files_paths env ws fileOnly matchP maxResults walk,
        startsWithSlash q = false)
    ∧ (get_file_info_tool env fs path userId fresh = .ok p → startsWithSlash p = false)
    ∧ startsWithSlash (get_workspace_info env fs userId fresh).workspacePath = true := by
  refine ⟨?_, ?_, ?_, ?_⟩
  · intro e he
    rw [list_directory_entries, listLoop_eq] at he
    obtain ⟨item, hitem, rfl⟩ := List.mem_map.mp he
    exact startsWithSlash_pyRelpath env hwf _ _
  · intro q hq
    exact searchOuter_relative env hwf ws fileOnly matchP maxResults walk 0 q hq
  · intro hok
    cases hres : resolve_user_path env path userId fresh with
    | error e =>
      simp only [get_file_info_tool, hres] at hok
      exact Except.noConfusion hok
    | ok resolved2 =>
      simp only [get_file_info_tool, hres] at hok
      split at hok
      · exact absurd hok (by simp)
      · split at hok
        · exact absurd hok (by simp)
        · injection hok with h2
          rw [← h2]
          exact startsWithSlash_pyRelpath env hwf _ _
  · simp only [get_workspace_info]
    exact startsWithSlash_pyAbspath env _

/-- A filesystem whose workspace holds the empty directory sub. -/
def fsS : FileSystem := ⟨[], [wsAbsA, wsAbsA ++ "/sub"]⟩

/-- The concrete environment envA is well formed. -/
theorem envA_wf : envA.wf := by
  intro s hs
  obtain rfl := List.mem_singleton.mp hs
  exact ⟨by decide, by decide⟩

/-- Witness for the amended C4: a concrete listing entry, search result and
file-info path are relative, and the workspace info path is absolute. -/
theorem reported_paths_relative_except_workspace_info_witness :
    startsWithSlash (ListEntry.mk "a.txt" "a.txt").pathField = false
    ∧ startsWithSlash "a.txt" = false
    ∧ startsWithSlash "sub" = false
    ∧ startsWithSlash (get_workspace_info envA fsS
        (some "12345678-1234-5678-1234-567812345678") "f").workspacePath = true :=
  have h := reported_paths_relative_except_workspace_info envA envA_wf wsAbsA wsAbsA
    false 10 (fun _ => true) ["a.txt"] fsS [(wsAbsA, [], ["a.txt"])] true 50 (fun _ => true)
    (some "12345678-1234-5678-1234-567812345678") "f" "sub" "sub"
  ⟨h.1 (ListEntry.mk "a.txt" "a.txt") (by decide),
   h.2.1 "a.txt" (by decide),
   h.2.2.1 rfl,
   h.2.2.2⟩

end MCPFS
